import Mathlib

/-
Verification of the BaoussProLeague FPL sync pipeline.

The repository contains three HTTP handler variants:
  * `api/cron/sync-fpl-data.js` (legacy scheduled sync): recursive pagination
    (`getAllManagersFromLeague`), per-manager detail/picks fetches
    (`getManagerDetails`, `getManagerGWPicks`), always responds HTTP 200 after
    the auth check, upserting one row per manager keyed on `manager_id`.
  * the fixed scheduled sync (`fetchAllManagers` iterative pagination, classic
    league columns only, HTTP 500 on internal failure).
  * the manual sync (same iterative pagination, reconciles lms/h2h ranks onto
    the classic list, no secret check).

All JS functions are embedded as total Lean functions.  Network fetches are
modelled as environment-supplied functions returning `Except String _`
(`.error` = the promise rejected / non-ok HTTP status thrown by `fetchFPL`).
The unbounded `while (hasMore)` loop and the unbounded recursion are given an
explicit fuel parameter; every theorem only ever runs the loop within its
fuel.  JS truthiness is modelled faithfully: a missing field is `none`, and
`x || d` maps `0`, the empty string and `none` to the default.  Wall-clock
values (`Date.now()`, `new Date().toISOString()`) are abstracted: elapsed
time is an environment parameter and `last_updated` columns are omitted from
the row structures (they are listed in the column-name lists, which record
the literal keys of the JS object literals).
-/

namespace BPL

/-- One entry of `standings.results` as served by the FPL classic-league
standings endpoint.  `event_total` is `Option` because the code guards it
with `|| 0`. -/
structure LeagueEntry where
  entry : Nat
  player_name : String
  entry_name : String
  rank : Nat
  total : Nat
  event_total : Option Nat
deriving DecidableEq, Repr

/-- The `standings` object of a standings page: `results` may be absent
(`none`) and `has_next` is the "has more pages" flag. -/
structure Standings where
  results : Option (List LeagueEntry)
  has_next : Bool
deriving DecidableEq, Repr

/-- A standings page body; `standings` itself may be absent, which the code
probes with optional chaining (`data.standings?.results`). -/
structure PageResponse where
  standings : Option Standings
deriving DecidableEq, Repr

/-- A period (gameweek) descriptor from `bootstrap-static`: `events[i]`. -/
structure Event where
  id : Nat
  is_current : Bool
deriving DecidableEq, Repr

/-- The `bootstrap-static` body, reduced to the `events` list the code
reads. -/
structure Bootstrap where
  events : List Event
deriving DecidableEq, Repr

/-- `getCurrentGW` (identical in all three files):
`bootstrap.events.find(e => e.is_current)?.id || 11`, with the whole fetch
wrapped in try/catch returning 11.  JS truthiness: a current event with id 0
also falls back to 11. -/
def getCurrentGW (bootstrap : Except String Bootstrap) : Nat :=
  match bootstrap with
  | .error _ => 11
  | .ok b =>
    match b.events.find? (fun e => e.is_current) with
    | some e => if e.id = 0 then 11 else e.id
    | none => 11

/-- One iteration step of the iterative paginator `fetchAllManagers`
(fixed-cron and manual-sync files).  Returns the accumulated managers
together with the number of upstream page fetches performed.  JS semantics:
`if (data.standings?.results)` is true whenever the `results` field is
present — an empty array is truthy — so an empty page with `has_next: true`
still advances; a thrown fetch ends the loop keeping the accumulator. -/
def fetchAllManagersAux (u : Nat → Except String PageResponse) :
    Nat → Nat → List LeagueEntry → List LeagueEntry × Nat
  | 0, _, acc => (acc, 0)
  | fuel + 1, page, acc =>
    match u page with
    | .error _ => (acc, 1)
    | .ok d =>
      match d.standings with
      | none => (acc, 1)
      | some s =>
        match s.results with
        | none => (acc, 1)
        | some rs =>
          if s.has_next then
            let r := fetchAllManagersAux u fuel (page + 1) (acc ++ rs)
            (r.1, r.2 + 1)
          else (acc ++ rs, 1)

/-- `fetchAllManagers(leagueId)` of the iterative variants: run the page loop
from page 1 with an empty accumulator. -/
def fetchAllManagers (u : Nat → Except String PageResponse) (fuel : Nat) :
    List LeagueEntry :=
  (fetchAllManagersAux u fuel 1 []).1

/-- `getAllManagersFromLeague` of the legacy cron file: recursive pagination.
A throw anywhere in the current frame returns the managers accumulated by
that frame (empty, since the fetch is the first statement), while callers
keep their pages; the recursion continues whenever `standings?.has_next` is
truthy, independently of whether `results` is present. -/
def getAllManagersFromLeague (u : Nat → Except String PageResponse) :
    Nat → Nat → List LeagueEntry
  | 0, _ => []
  | fuel + 1, page =>
    match u page with
    | .error _ => []
    | .ok d =>
      let pushed := (d.standings.bind fun s => s.results).getD []
      let more := (d.standings.map fun s => s.has_next).getD false
      if more then pushed ++ getAllManagersFromLeague u fuel (page + 1)
      else pushed

/-- The row the manual-sync file builds per classic manager
(`managerData` map in `api/manual-sync.js`); the wall-clock `last_updated`
column is omitted (see header comment), its key is recorded in
`manualManagerDataKeys`. -/
structure ManualRow where
  manager_id : Nat
  gw : Nat
  team_name : String
  player_name : String
  classic_rank : Nat
  classic_total : Nat
  classic_gw_points : Nat
  lms_rank : Option Nat
  h2h_rank : Option Nat
deriving DecidableEq, Repr

/-- `list.find(x => x.entry === m.entry)?.rank || null`: the rank of the
first entry with the given manager id, `null` when none matches — and, by JS
truthiness of `|| null`, also `null` when the matching rank is `0`. -/
def rankLookup (sec : List LeagueEntry) (id : Nat) : Option Nat :=
  match sec.find? (fun lm => lm.entry == id) with
  | some lm => if lm.rank = 0 then none else some lm.rank
  | none => none

/-- The reconciliation step of the manual-sync handler: one output row per
classic (primary) manager, in input order, with lms/h2h ranks joined on by
linear lookup. -/
def managerData (gw : Nat)
    (classicManagers lmsManagers h2hManagers : List LeagueEntry) :
    List ManualRow :=
  classicManagers.map fun m =>
    { manager_id := m.entry
      gw := gw
      team_name := m.entry_name
      player_name := m.player_name
      classic_rank := m.rank
      classic_total := m.total
      classic_gw_points := m.event_total.getD 0
      lms_rank := rankLookup lmsManagers m.entry
      h2h_rank := rankLookup h2hManagers m.entry }

/-- The row the fixed-cron file builds per classic manager (its `managerData`
map); it carries no secondary-league columns even though the handler fetches
the LMS and H2H standings.  `m.total || 0` and `m.rank || 0` are the
identity on `Nat`. -/
structure FixedRow where
  manager_id : Nat
  manager_name : String
  team_name : String
  gw : Nat
  gw_points : Nat
  total_points : Nat
  overall_rank : Nat
deriving DecidableEq, Repr

/-- The fixed-cron reconciliation: one `FixedRow` per classic manager. -/
def fixedManagerData (gw : Nat) (classicManagers : List LeagueEntry) :
    List FixedRow :=
  classicManagers.map fun m =>
    { manager_id := m.entry
      manager_name := m.player_name
      team_name := m.entry_name
      gw := gw
      gw_points := m.event_total.getD 0
      total_points := m.total
      overall_rank := m.rank }

/-- The literal keys of the object the fixed-cron handler upserts. -/
def fixedManagerDataKeys : List String :=
  ["manager_id", "manager_name", "team_name", "gw", "gw_points",
   "total_points", "overall_rank", "last_updated"]

/-- The literal keys of the object the manual-sync handler upserts. -/
def manualManagerDataKeys : List String :=
  ["manager_id", "gw", "team_name", "player_name", "classic_rank",
   "classic_total", "classic_gw_points", "lms_rank", "h2h_rank",
   "last_updated"]

/-- The request headers the handlers read. -/
structure Req where
  xVercelCronSecret : Option String
  authorization : Option String
deriving DecidableEq, Repr

/-- The environment variables the handlers read (`process.env.*`; `none` =
unset). -/
structure EnvCfg where
  cronSecret : Option String
  supabaseUrl : Option String
  supabaseKey : Option String
deriving DecidableEq, Repr

/-- Does `pat` occur at the head of `cs`? -/
def startsWithChars : List Char → List Char → Bool
  | [], _ => true
  | _ :: _, [] => false
  | p :: ps, c :: cs => p == c && startsWithChars ps cs

/-- Remove the first (leftmost) occurrence of `pat` from the character
list. -/
def removeFirstChars (pat : List Char) : List Char → List Char
  | [] => []
  | c :: cs =>
    if startsWithChars pat (c :: cs) then List.drop pat.length (c :: cs)
    else c :: removeFirstChars pat cs

/-- JS `s.replace(pat, "")` with a string pattern: remove only the first
occurrence of `pat`. -/
def replaceFirst (s pat : String) : String :=
  String.mk (removeFirstChars pat.data s.data)

/-- The fixed-cron secret extraction:
`req.headers["x-vercel-cron-secret"] || req.headers["authorization"]?.replace("Bearer ", "")`.
An empty-string header is falsy and falls through to the authorization
header. -/
def extractCronSecret (req : Req) : Option String :=
  let auth := req.authorization.map fun a => replaceFirst a "Bearer "
  match req.xVercelCronSecret with
  | some s => if s = "" then auth else some s
  | none => auth

/-- Module-level Supabase initialization of the fixed-cron and manual-sync
files: the client handle is set only when both `SUPABASE_URL` and
`SUPABASE_KEY` are present and truthy (non-empty); otherwise the handle
stays undefined and the handlers throw `Supabase client not initialized`
inside their try block.  (The `createClient` call itself is external
library code; its own try/catch branch would likewise leave the handle
undefined.) -/
def supabaseReady (cfg : EnvCfg) : Bool :=
  match cfg.supabaseUrl, cfg.supabaseKey with
  | some u, some k => (u != "") && (k != "")
  | _, _ => false

/-- `process.env.CRON_SECRET` spliced into the legacy template literal
`Bearer ${process.env.CRON_SECRET}`: an unset variable prints as
`"undefined"`. -/
def cronSecretString (cfg : EnvCfg) : String :=
  match cfg.cronSecret with
  | some s => s
  | none => "undefined"

/-- The JSON bodies the three handlers can send. -/
inductive RespBody where
  | authError (error : String)
  | failure (error : String)
  | success (gw managersProcessed duration : Nat)
  | failureMessage (message : String)
  | legacySuccess (managers gw : Nat)
deriving DecidableEq, Repr

/-- The observable outcome of one handler invocation: HTTP status, JSON
body, number of upstream (FPL) fetches performed, and the data-store write
operations attempted, in order.  `W` is the per-handler write-operation
type. -/
structure HandlerResult (W : Type) where
  status : Nat
  body : RespBody
  upstreamCalls : Nat
  writes : List W
deriving DecidableEq, Repr

/-- The upstream FPL API as seen by one invocation: the bootstrap body and,
per league, the standings page bodies. -/
structure FPLUpstream where
  bootstrap : Except String Bootstrap
  classic : Nat → Except String PageResponse
  lms : Nat → Except String PageResponse
  h2h : Nat → Except String PageResponse

/-- The data store behaviour for the bulk upsert the fixed/manual handlers
perform: `some msg` means the upsert resolves with an `error` object. -/
structure DB where
  upsertError : Option String
deriving DecidableEq, Repr

/-- A write attempted by the fixed-cron handler. -/
inductive FixedWrite where
  | upsertManagerData (rows : List FixedRow)
deriving DecidableEq, Repr

/-- A write attempted by the manual-sync handler. -/
inductive ManualWrite where
  | upsertManagerData (rows : List ManualRow)
deriving DecidableEq, Repr

/-- The fixed-cron handler (`export default async function handler` of the
fixed `api/cron/sync-fpl-data.js`): secret check first, then the Supabase
handle check, then bootstrap + the three league fetches, the classic-only
row build, and one bulk upsert whose `error` result is turned into an
HTTP 500. -/
def fixedCronHandler (req : Req) (cfg : EnvCfg) (up : FPLUpstream) (db : DB)
    (elapsedMs fuel : Nat) : HandlerResult FixedWrite :=
  if extractCronSecret req ≠ cfg.cronSecret then
    { status := 401, body := .authError "Unauthorized",
      upstreamCalls := 0, writes := [] }
  else if supabaseReady cfg then
    let gw := getCurrentGW up.bootstrap
    let classic := fetchAllManagersAux up.classic fuel 1 []
    let lms := fetchAllManagersAux up.lms fuel 1 []
    let h2h := fetchAllManagersAux up.h2h fuel 1 []
    let calls := 1 + classic.2 + lms.2 + h2h.2
    let data := fixedManagerData gw classic.1
    match db.upsertError with
    | some msg =>
      { status := 500, body := .failure ("Supabase insert failed: " ++ msg),
        upstreamCalls := calls, writes := [.upsertManagerData data] }
    | none =>
      { status := 200, body := .success gw data.length elapsedMs,
        upstreamCalls := calls, writes := [.upsertManagerData data] }
  else
    { status := 500, body := .failure "Supabase client not initialized",
      upstreamCalls := 0, writes := [] }

/-- The manual-sync handler (`api/manual-sync.js`): the same pipeline as the
fixed cron handler with no secret check, and with the lms/h2h ranks joined
onto the classic rows. -/
def manualSyncHandler (cfg : EnvCfg) (up : FPLUpstream) (db : DB)
    (elapsedMs fuel : Nat) : HandlerResult ManualWrite :=
  if supabaseReady cfg then
    let gw := getCurrentGW up.bootstrap
    let classic := fetchAllManagersAux up.classic fuel 1 []
    let lms := fetchAllManagersAux up.lms fuel 1 []
    let h2h := fetchAllManagersAux up.h2h fuel 1 []
    let calls := 1 + classic.2 + lms.2 + h2h.2
    let data := managerData gw classic.1 lms.1 h2h.1
    match db.upsertError with
    | some msg =>
      { status := 500, body := .failure ("Supabase insert failed: " ++ msg),
        upstreamCalls := calls, writes := [.upsertManagerData data] }
    | none =>
      { status := 200, body := .success gw data.length elapsedMs,
        upstreamCalls := calls, writes := [.upsertManagerData data] }
  else
    { status := 500, body := .failure "Supabase client not initialized",
      upstreamCalls := 0, writes := [] }

/-- The `/entry/{id}/` body fields the legacy cron file reads; every field is
`Option` because the code guards each with `|| 0` / `|| "Unknown"`. -/
structure MDetails where
  last_name : Option String
  value : Option Nat
  bank : Option Nat
  transfers_made : Option Nat
deriving DecidableEq, Repr

/-- One element of the `picks` array of `/entry/{id}/event/{gw}/picks/`. -/
structure Pick where
  element : Nat
  is_captain : Bool
deriving DecidableEq, Repr

/-- The picks body; the `picks` array may be absent (the code probes it with
`picks?.picks?.find`). -/
structure MPicks where
  picks : Option (List Pick)
deriving DecidableEq, Repr

/-- The row the legacy cron file upserts per manager (keyed on `manager_id`
alone; no `gw` column).  `last_updated` is again omitted as wall-clock. -/
structure LegacyRow where
  manager_id : Nat
  entry_id : Nat
  manager_name : String
  team_name : String
  total_points : Nat
  overall_rank : Nat
  gw_points : Nat
  captain_id : Option Nat
  captain_name : String
  value : Nat
  bank : Nat
  transfers_made : Nat
deriving DecidableEq, Repr

/-- Build the legacy upsert row for one manager from the standings entry,
the `/entry/` details and the (possibly failed, hence `Option`) picks body.
`captain?.element || null` also nulls a captain with element id 0. -/
def legacyRow (m : LeagueEntry) (d : MDetails) (p : Option MPicks) :
    LegacyRow :=
  let captain := (p.bind fun q => q.picks).bind (List.find? fun c =>
    c.is_captain)
  { manager_id := m.entry
    entry_id := m.entry
    manager_name := m.player_name
    team_name := m.entry_name
    total_points := m.total
    overall_rank := m.rank
    gw_points := m.event_total.getD 0
    captain_id := captain.bind fun c =>
      if c.element = 0 then none else some c.element
    captain_name := match d.last_name with
      | some s => if s = "" then "Unknown" else s
      | none => "Unknown"
    value := d.value.getD 0
    bank := d.bank.getD 0
    transfers_made := d.transfers_made.getD 0 }

/-- The per-manager loop of the legacy `syncManagerData`: `details id = none`
models `getManagerDetails` catching a failure (`if (!details) continue` —
the manager is skipped); a failed picks fetch is `picks id gw = none` and
the row is still produced.  Both per-manager fetch failures and upsert
errors are caught inside the loop body, so every remaining manager is still
processed. -/
def syncManagerRows (details : Nat → Option MDetails)
    (picks : Nat → Nat → Option MPicks) (gw : Nat)
    (ms : List LeagueEntry) : List LegacyRow :=
  ms.filterMap fun m =>
    (details m.entry).map fun d => legacyRow m d (picks m.entry gw)

/-- A write attempted by the legacy cron handler: one `manager_data` upsert
per manager, then the `season_snapshot` singleton upsert. -/
inductive LegacyWrite where
  | managerRow (row : LegacyRow)
  | seasonSnapshot (gw : Nat)
deriving DecidableEq, Repr

/-- Upstream fetches the recursive paginator performs: one per visited page
(stopping after an error page or a page without a truthy `has_next`). -/
def getAllManagersCalls (u : Nat → Except String PageResponse) :
    Nat → Nat → Nat
  | 0, _ => 0
  | fuel + 1, page =>
    match u page with
    | .error _ => 1
    | .ok d =>
      if (d.standings.map fun s => s.has_next).getD false then
        1 + getAllManagersCalls u fuel (page + 1)
      else 1

/-- Upstream fetches of the legacy per-manager loop: one `/entry/` fetch per
manager, plus one picks fetch when the details fetch succeeded. -/
def perManagerCalls (details : Nat → Option MDetails)
    (ms : List LeagueEntry) : Nat :=
  (ms.map fun m =>
    match details m.entry with
    | some _ => 2
    | none => 1).sum

/-- Total upstream fetches of one legacy `syncManagerData` run. -/
def legacyCalls (up : FPLUpstream) (details : Nat → Option MDetails)
    (fuel : Nat) : Nat :=
  let allManagers := getAllManagersFromLeague up.classic fuel 1
  1 + getAllManagersCalls up.classic fuel 1 +
    (if allManagers.length = 0 then 0 else perManagerCalls details allManagers)

/-- The legacy `syncManagerData`: bootstrap, recursive pagination of the
classic league, early `{success:false, message}` result when no managers
were found, otherwise the per-manager loop followed by the
`season_snapshot` upsert.  Nothing inside the outer try can throw in this
model (all fetch failures are already absorbed), so the `{success:false,
error}` catch branch is unreachable and the function returns either the
`legacySuccess` or the `failureMessage` body. -/
def legacySyncManagerData (up : FPLUpstream)
    (details : Nat → Option MDetails) (picks : Nat → Nat → Option MPicks)
    (fuel : Nat) : RespBody × List LegacyWrite :=
  let gw := getCurrentGW up.bootstrap
  let allManagers := getAllManagersFromLeague up.classic fuel 1
  if allManagers.length = 0 then
    (.failureMessage "No managers found", [])
  else
    let rows := syncManagerRows details picks gw allManagers
    (.legacySuccess allManagers.length gw,
      rows.map .managerRow ++ [.seasonSnapshot gw])

/-- The legacy cron handler: compares `req.headers.authorization` against
the template literal `Bearer ${process.env.CRON_SECRET}` and returns 401 on
mismatch before any fetch or write; otherwise it always responds HTTP 200
with whatever body `syncManagerData` produced. -/
def legacyCronHandler (req : Req) (cfg : EnvCfg) (up : FPLUpstream)
    (details : Nat → Option MDetails) (picks : Nat → Nat → Option MPicks)
    (fuel : Nat) : HandlerResult LegacyWrite :=
  if req.authorization ≠ some ("Bearer " ++ cronSecretString cfg) then
    { status := 401, body := .authError "Unauthorized",
      upstreamCalls := 0, writes := [] }
  else
    let r := legacySyncManagerData up details picks fuel
    { status := 200, body := r.1,
      upstreamCalls := legacyCalls up details fuel, writes := r.2 }

/-- A standings page that carries the given result records and declares that
more pages exist. -/
def fullPage (rs : List LeagueEntry) : PageResponse :=
  ⟨some ⟨some rs, true⟩⟩


/-- Step fact: a failed page fetch ends the iterative loop, keeping the
accumulator, after one upstream call. -/
lemma fetchAllManagersAux_error (u : Nat → Except String PageResponse)
    (fuel page : Nat) (acc : List LeagueEntry) (msg : String)
    (h : u page = .error msg) :
    fetchAllManagersAux u (fuel + 1) page acc = (acc, 1) := by
  unfold fetchAllManagersAux
  rw [h]

/-- Step fact: a full page appends its records and advances the iterative
loop to the next page. -/
lemma fetchAllManagersAux_full (u : Nat → Except String PageResponse)
    (fuel page : Nat) (acc rs : List LeagueEntry)
    (h : u page = .ok (fullPage rs)) :
    fetchAllManagersAux u (fuel + 1) page acc =
      ((fetchAllManagersAux u fuel (page + 1) (acc ++ rs)).1,
       (fetchAllManagersAux u fuel (page + 1) (acc ++ rs)).2 + 1) := by
  conv_lhs => unfold fetchAllManagersAux
  rw [h]
  rfl

/-- Step fact: a failed page fetch returns the empty list in the recursive
paginator (the caller frame appends it to its own pages). -/
lemma getAllManagersFromLeague_error (u : Nat → Except String PageResponse)
    (fuel page : Nat) (msg : String) (h : u page = .error msg) :
    getAllManagersFromLeague u (fuel + 1) page = [] := by
  unfold getAllManagersFromLeague
  rw [h]

/-- Step fact: a full page prepends its records to the recursive call on the
next page. -/
lemma getAllManagersFromLeague_full (u : Nat → Except String PageResponse)
    (fuel page : Nat) (rs : List LeagueEntry)
    (h : u page = .ok (fullPage rs)) :
    getAllManagersFromLeague u (fuel + 1) page =
      rs ++ getAllManagersFromLeague u fuel (page + 1) := by
  conv_lhs => unfold getAllManagersFromLeague
  rw [h]
  rfl

/-- Splitting the concatenation of pages `start .. start + k` at the first
page. -/
lemma flatten_range_succ_shift {α : Type} (g : Nat → List α) (k start : Nat) :
    ((List.range (k + 1)).map fun i => g (start + i)).flatten =
      g start ++ ((List.range k).map fun i => g (start + 1 + i)).flatten := by
  rw [List.range_succ_eq_map, List.map_cons, List.flatten_cons, List.map_map]
  have h : ((fun i => g (start + i)) ∘ Nat.succ) = fun i => g (start + 1 + i) := by
    funext i
    have h2 : start + Nat.succ i = start + 1 + i := by omega
    simp [Function.comp, h2]
  rw [h, Nat.add_zero]

/-- Loop invariant of the iterative paginator: if every page from `start` up
to `start + k - 1` is a full page and page `start + k` fails, the loop
returns the accumulator followed by those pages in order. -/
lemma fetchAllManagersAux_concat
    (u : Nat → Except String PageResponse) (rs : Nat → List LeagueEntry)
    (msg : String) :
    ∀ (k start fuel : Nat) (acc : List LeagueEntry), k < fuel →
      (∀ p, start ≤ p → p < start + k → u p = .ok (fullPage (rs p))) →
      u (start + k) = .error msg →
      (fetchAllManagersAux u fuel start acc).1 =
        acc ++ ((List.range k).map fun i => rs (start + i)).flatten := by
  intro k
  induction k with
  | zero =>
    intro start fuel acc hfuel hok hfail
    obtain ⟨f, rfl⟩ : ∃ f, fuel = f + 1 := ⟨fuel - 1, by omega⟩
    simp only [Nat.add_zero] at hfail
    rw [fetchAllManagersAux_error u f start acc msg hfail]
    simp
  | succ k ih =>
    intro start fuel acc hfuel hok hfail
    obtain ⟨f, rfl⟩ : ∃ f, fuel = f + 1 := ⟨fuel - 1, by omega⟩
    have h1 : u start = .ok (fullPage (rs start)) := hok start le_rfl (by omega)
    rw [fetchAllManagersAux_full u f start acc (rs start) h1]
    have ih2 := ih (start + 1) f (acc ++ rs start) (by omega)
      (fun p hp1 hp2 => hok p (by omega) (by omega))
      (by
        have h3 : start + 1 + k = start + (k + 1) := by omega
        rw [h3]; exact hfail)
    rw [ih2, flatten_range_succ_shift rs k start, List.append_assoc]

/-- The same invariant for the recursive paginator of the legacy file. -/
lemma getAllManagersFromLeague_concat
    (u : Nat → Except String PageResponse) (rs : Nat → List LeagueEntry)
    (msg : String) :
    ∀ (k start fuel : Nat), k < fuel →
      (∀ p, start ≤ p → p < start + k → u p = .ok (fullPage (rs p))) →
      u (start + k) = .error msg →
      getAllManagersFromLeague u fuel start =
        ((List.range k).map fun i => rs (start + i)).flatten := by
  intro k
  induction k with
  | zero =>
    intro start fuel hfuel hok hfail
    obtain ⟨f, rfl⟩ : ∃ f, fuel = f + 1 := ⟨fuel - 1, by omega⟩
    simp only [Nat.add_zero] at hfail
    rw [getAllManagersFromLeague_error u f start msg hfail]
    simp
  | succ k ih =>
    intro start fuel hfuel hok hfail
    obtain ⟨f, rfl⟩ : ∃ f, fuel = f + 1 := ⟨fuel - 1, by omega⟩
    have h1 : u start = .ok (fullPage (rs start)) := hok start le_rfl (by omega)
    rw [getAllManagersFromLeague_full u f start (rs start) h1]
    have ih2 := ih (start + 1) f (by omega)
      (fun p hp1 hp2 => hok p (by omega) (by omega))
      (by
        have h3 : start + 1 + k = start + (k + 1) := by omega
        rw [h3]; exact hfail)
    rw [ih2, flatten_range_succ_shift rs k start]

/-- C1: for every league whose upstream serves full pages 1..k and then
fails on page k+1, both paginators (`fetchAllManagers` of the
fixed-cron/manual files and `getAllManagersFromLeague` of the legacy file)
return the concatenation of the result records of pages 1..k in page order;
the failure is absorbed, not raised — the functions are total and simply
return the accumulated list. -/
theorem c1_paginator_keeps_pages_on_failure
    (u : Nat → Except String PageResponse) (rs : Nat → List LeagueEntry)
    (msg : String) (k fuel : Nat) (hfuel : k < fuel)
    (hok : ∀ p, 1 ≤ p → p ≤ k → u p = .ok (fullPage (rs p)))
    (hfail : u (k + 1) = .error msg) :
    fetchAllManagers u fuel =
      ((List.range k).map fun i => rs (1 + i)).flatten ∧
    getAllManagersFromLeague u fuel 1 =
      ((List.range k).map fun i => rs (1 + i)).flatten := by
  have hok2 : ∀ p, 1 ≤ p → p < 1 + k → u p = .ok (fullPage (rs p)) :=
    fun p h1 h2 => hok p h1 (by omega)
  have hfail2 : u (1 + k) = .error msg := by
    have h3 : 1 + k = k + 1 := by omega
    rw [h3]; exact hfail
  constructor
  · have h := fetchAllManagersAux_concat u rs msg k 1 fuel [] hfuel hok2 hfail2
    simpa [fetchAllManagers] using h
  · exact getAllManagersFromLeague_concat u rs msg k 1 fuel hfuel hok2 hfail2

/-- Upstream used by the C1 witness: two full pages, then a failure. -/
def uC1 : Nat → Except String PageResponse := fun p =>
  if p = 1 then .ok (fullPage [⟨1, "a", "ta", 1, 50, some 5⟩])
  else if p = 2 then .ok (fullPage [⟨2, "b", "tb", 2, 40, none⟩])
  else .error "FPL API /leagues-classic returned 503"

/-- Per-page records of the C1 witness. -/
def rsC1 : Nat → List LeagueEntry := fun p =>
  if p = 1 then [⟨1, "a", "ta", 1, 50, some 5⟩]
  else if p = 2 then [⟨2, "b", "tb", 2, 40, none⟩]
  else []

/-- Witness for C1: pages 1 and 2 succeed, page 3 fails, and both paginators
return the two pages concatenated. -/
theorem c1_witness :
    fetchAllManagers uC1 9 =
      [⟨1, "a", "ta", 1, 50, some 5⟩, ⟨2, "b", "tb", 2, 40, none⟩] ∧
    getAllManagersFromLeague uC1 9 1 =
      [⟨1, "a", "ta", 1, 50, some 5⟩, ⟨2, "b", "tb", 2, 40, none⟩] := by
  have h := c1_paginator_keeps_pages_on_failure uC1 rsC1
    "FPL API /leagues-classic returned 503" 2 9 (by omega)
    (by intro p h1 h2; interval_cases p <;> rfl) (by rfl)
  exact ⟨h.1.trans (by decide), h.2.trans (by decide)⟩

/-- Upstream for the C2 counterexample: page 1 has a present but empty
result list and `has_next: true`; page 2 carries a record. -/
def uC2 : Nat → Except String PageResponse := fun p =>
  if p = 1 then .ok ⟨some ⟨some [], true⟩⟩
  else if p = 2 then .ok ⟨some ⟨some [⟨9, "x", "tx", 1, 10, none⟩], false⟩⟩
  else .error "late failure"

/-- Counterexample to C2 as stated: the claim allows an advance from page 1
to page 2 only when page 1 contains a NON-EMPTY result list, so with page 1
empty it would require the output to be empty.  In the code an empty array
is truthy (`if (data.standings?.results)` holds), the loop advances, and
page 2's record is returned. -/
theorem c2_counterexample :
    fetchAllManagers uC2 9 = [⟨9, "x", "tx", 1, 10, none⟩] ∧
    uC2 1 = .ok ⟨some ⟨some [], true⟩⟩ := by
  exact ⟨by decide, rfl⟩

/-- Step fact: a page with a present result list and `has_next: false` ends
the iterative loop after appending the records. -/
lemma fetchAllManagersAux_stop (u : Nat → Except String PageResponse)
    (fuel page : Nat) (acc rs : List LeagueEntry) (s : Standings)
    (h : u page = .ok ⟨some s⟩) (h2 : s.results = some rs)
    (h3 : s.has_next = false) :
    fetchAllManagersAux u (fuel + 1) page acc = (acc ++ rs, 1) := by
  obtain ⟨res, hn⟩ := s
  simp only at h2 h3
  subst h2 h3
  unfold fetchAllManagersAux
  rw [h]
  rfl

/-- Step fact: a page without `standings` or without a `results` field ends
the iterative loop, appending nothing. -/
lemma fetchAllManagersAux_missing (u : Nat → Except String PageResponse)
    (fuel page : Nat) (acc : List LeagueEntry) (d : PageResponse)
    (h : u page = .ok d)
    (h2 : d.standings = none ∨ ∃ s, d.standings = some s ∧ s.results = none) :
    fetchAllManagersAux u (fuel + 1) page acc = (acc, 1) := by
  rcases h2 with h2 | ⟨s, h2, h3⟩
  · obtain ⟨st⟩ := d
    simp only at h2
    subst h2
    unfold fetchAllManagersAux
    rw [h]
  · obtain ⟨st⟩ := d
    obtain ⟨res, hn⟩ := s
    simp only at h2 h3
    subst h2 h3
    unfold fetchAllManagersAux
    rw [h]

/-- Step fact: the recursive paginator stops when `standings?.has_next` is
not truthy, returning whatever `results` the page carried. -/
lemma getAllManagersFromLeague_stop (u : Nat → Except String PageResponse)
    (fuel page : Nat) (d : PageResponse) (h : u page = .ok d)
    (h2 : (d.standings.map fun s => s.has_next).getD false = false) :
    getAllManagersFromLeague u (fuel + 1) page =
      (d.standings.bind fun s => s.results).getD [] := by
  conv_lhs => unfold getAllManagersFromLeague
  rw [h]
  simp only [h2]
  rfl

/-- Step fact: the recursive paginator advances whenever
`standings?.has_next` is truthy, regardless of whether `results` is
present. -/
lemma getAllManagersFromLeague_more (u : Nat → Except String PageResponse)
    (fuel page : Nat) (d : PageResponse) (h : u page = .ok d)
    (h2 : (d.standings.map fun s => s.has_next).getD false = true) :
    getAllManagersFromLeague u (fuel + 1) page =
      (d.standings.bind fun s => s.results).getD [] ++
        getAllManagersFromLeague u fuel (page + 1) := by
  conv_lhs => unfold getAllManagersFromLeague
  rw [h]
  simp only [h2]
  rfl

/-- C2 as amended: the iterative paginator advances from page n to page n+1
exactly when the page-n response has a PRESENT result list (possibly empty)
and the "has more" flag true; a present list with the flag false stops and
keeps the page, a missing `standings`/`results` field stops and appends
nothing, an upstream failure stops and keeps the accumulator; the recursive
legacy paginator advances whenever the flag alone is truthy.  For a league
with zero managers (one page, empty result list, flag false) both
paginators return the empty sequence. -/
theorem c2_amended_advance_condition
    (u : Nat → Except String PageResponse) (fuel : Nat) :
    (∀ start acc s rs, u start = .ok ⟨some s⟩ → s.results = some rs →
       s.has_next = true →
       (fetchAllManagersAux u (fuel + 1) start acc).1 =
         (fetchAllManagersAux u fuel (start + 1) (acc ++ rs)).1) ∧
    (∀ start acc s rs, u start = .ok ⟨some s⟩ → s.results = some rs →
       s.has_next = false →
       (fetchAllManagersAux u (fuel + 1) start acc).1 = acc ++ rs) ∧
    (∀ start acc d, u start = .ok d →
       (d.standings = none ∨ ∃ s, d.standings = some s ∧ s.results = none) →
       (fetchAllManagersAux u (fuel + 1) start acc).1 = acc) ∧
    (∀ start acc msg, u start = .error msg →
       (fetchAllManagersAux u (fuel + 1) start acc).1 = acc) ∧
    (u 1 = .ok ⟨some ⟨some [], false⟩⟩ → fetchAllManagers u (fuel + 1) = []) ∧
    (u 1 = .ok ⟨some ⟨some [], false⟩⟩ →
       getAllManagersFromLeague u (fuel + 1) 1 = []) ∧
    (∀ start d, u start = .ok d →
       (d.standings.map fun s => s.has_next).getD false = true →
       getAllManagersFromLeague u (fuel + 1) start =
         (d.standings.bind fun s => s.results).getD [] ++
           getAllManagersFromLeague u fuel (start + 1)) := by
  refine ⟨?_, ?_, ?_, ?_, ?_, ?_, ?_⟩
  · intro start acc s rs h h2 h3
    obtain ⟨res, hn⟩ := s
    simp only at h2 h3
    subst h2 h3
    rw [fetchAllManagersAux_full u fuel start acc rs h]
  · intro start acc s rs h h2 h3
    rw [fetchAllManagersAux_stop u fuel start acc rs s h h2 h3]
  · intro start acc d h h2
    rw [fetchAllManagersAux_missing u fuel start acc d h h2]
  · intro start acc msg h
    rw [fetchAllManagersAux_error u fuel start acc msg h]
  · intro h
    show (fetchAllManagersAux u (fuel + 1) 1 []).1 = []
    rw [fetchAllManagersAux_stop u fuel 1 [] [] ⟨some [], false⟩ h rfl rfl]
    rfl
  · intro h
    rw [getAllManagersFromLeague_stop u fuel 1 ⟨some ⟨some [], false⟩⟩ h rfl]
    rfl
  · intro start d h h2
    exact getAllManagersFromLeague_more u fuel start d h h2

/-- Upstream for the C2 witness: page 1 is a zero-manager league page,
page 2 a full page, page 3 a final page with records, page 4 a body without
`standings`, page 5 a failure. -/
def uC2w : Nat → Except String PageResponse := fun p =>
  if p = 1 then .ok ⟨some ⟨some [], false⟩⟩
  else if p = 2 then .ok ⟨some ⟨some [⟨21, "e", "te", 3, 30, none⟩], true⟩⟩
  else if p = 3 then .ok ⟨some ⟨some [⟨22, "f", "tf", 4, 20, none⟩], false⟩⟩
  else if p = 4 then .ok ⟨none⟩
  else .error "boom"

/-- Witness for the amended C2, discharging every hypothesis at concrete
pages of `uC2w`. -/
theorem c2_witness :
    (fetchAllManagersAux uC2w 3 2 []).1 =
      (fetchAllManagersAux uC2w 2 3 ([] ++ [⟨21, "e", "te", 3, 30, none⟩])).1 ∧
    (fetchAllManagersAux uC2w 3 3 []).1 = [] ++ [⟨22, "f", "tf", 4, 20, none⟩] ∧
    (fetchAllManagersAux uC2w 3 4 []).1 = [] ∧
    (fetchAllManagersAux uC2w 3 5 []).1 = [] ∧
    fetchAllManagers uC2w 3 = [] ∧
    getAllManagersFromLeague uC2w 3 1 = [] ∧
    getAllManagersFromLeague uC2w 3 2 =
      [⟨21, "e", "te", 3, 30, none⟩] ++ getAllManagersFromLeague uC2w 2 3 := by
  have h := c2_amended_advance_condition uC2w 2
  refine ⟨?_, ?_, ?_, ?_, h.2.2.2.2.1 rfl, h.2.2.2.2.2.1 rfl, ?_⟩
  · exact h.1 2 [] ⟨some [⟨21, "e", "te", 3, 30, none⟩], true⟩
      [⟨21, "e", "te", 3, 30, none⟩] rfl rfl rfl
  · exact h.2.1 3 [] ⟨some [⟨22, "f", "tf", 4, 20, none⟩], false⟩
      [⟨22, "f", "tf", 4, 20, none⟩] rfl rfl rfl
  · exact h.2.2.1 4 [] ⟨none⟩ rfl (Or.inl rfl)
  · exact h.2.2.2.1 5 [] "boom" rfl
  · exact (h.2.2.2.2.2.2 2 ⟨some ⟨some [⟨21, "e", "te", 3, 30, none⟩], true⟩⟩
      rfl rfl).trans (by rfl)

/-- C3: the reconciliation of the manual-sync handler returns exactly one
record per primary-list (classic) entry, in primary order, and every output
manager id comes from the primary list — a manager present only in a
secondary list never appears. -/
theorem c3_reconcile_shape (gw : Nat) (c l h : List LeagueEntry) :
    (managerData gw c l h).length = c.length ∧
    (managerData gw c l h).map (fun r => r.manager_id) =
      c.map (fun m => m.entry) ∧
    ∀ id, id ∈ (managerData gw c l h).map (fun r => r.manager_id) →
      id ∈ c.map (fun m => m.entry) := by
  have h2 : (managerData gw c l h).map (fun r => r.manager_id) =
      c.map (fun m => m.entry) := by
    simp only [managerData, List.map_map]
    rfl
  refine ⟨by simp [managerData], h2, ?_⟩
  intro id hid
  rwa [h2] at hid

/-- Primary list for the C3 witness. -/
def cC3 : List LeagueEntry :=
  [⟨1, "p", "t", 1, 50, none⟩, ⟨2, "q", "u", 2, 40, some 9⟩]

/-- Secondary list for the C3 witness; manager 3 is secondary-only. -/
def lC3 : List LeagueEntry :=
  [⟨2, "q", "u", 1, 0, none⟩, ⟨3, "z", "w", 2, 0, none⟩]

/-- Witness for C3 at a concrete reconciliation. -/
theorem c3_witness :
    (managerData 7 cC3 lC3 []).length = 2 ∧
    (managerData 7 cC3 lC3 []).map (fun r => r.manager_id) = [1, 2] ∧
    2 ∈ cC3.map (fun m => m.entry) := by
  have h := c3_reconcile_shape 7 cC3 lC3 []
  exact ⟨h.1.trans (by decide), h.2.1.trans (by decide),
    h.2.2 2 (by decide)⟩

/-- Primary list of the C4 counterexample. -/
def pC4 : List LeagueEntry := [⟨1, "p", "t", 1, 50, none⟩]

/-- Secondary (lms) list of the C4 counterexample: manager 1 is present with
rank 0. -/
def lC4 : List LeagueEntry := [⟨1, "p2", "t2", 0, 30, none⟩]

/-- Counterexample to C4 as stated: an lms entry with the same manager id
exists (rank 0), so the claim requires `lms_rank = some 0`; the `|| null`
coercion in the code yields `null` instead. -/
theorem c4_counterexample :
    lC4.find? (fun lm => lm.entry == 1) = some ⟨1, "p2", "t2", 0, 30, none⟩ ∧
    (managerData 7 pC4 lC4 []).map (fun r => r.lms_rank) = [none] := by
  exact ⟨by decide, by decide⟩

/-- C4 as amended: the i-th reconciled record attaches, per secondary
league, the rank of the first secondary entry with the same manager id when
such an entry exists AND its rank is nonzero, and null when no entry exists
or the matching rank is zero. -/
theorem c4_amended_rank_join (gw : Nat) (c l h : List LeagueEntry) (i : Nat)
    (hi : i < c.length) (hi2 : i < (managerData gw c l h).length) :
    ((managerData gw c l h).get ⟨i, hi2⟩).lms_rank =
      (match l.find? (fun lm => lm.entry == (c.get ⟨i, hi⟩).entry) with
       | some lm => if lm.rank = 0 then none else some lm.rank
       | none => none) ∧
    ((managerData gw c l h).get ⟨i, hi2⟩).h2h_rank =
      (match h.find? (fun lm => lm.entry == (c.get ⟨i, hi⟩).entry) with
       | some lm => if lm.rank = 0 then none else some lm.rank
       | none => none) := by
  have key : (managerData gw c l h).get ⟨i, hi2⟩ =
      (fun m => ({ manager_id := m.entry
                   gw := gw
                   team_name := m.entry_name
                   player_name := m.player_name
                   classic_rank := m.rank
                   classic_total := m.total
                   classic_gw_points := m.event_total.getD 0
                   lms_rank := rankLookup l m.entry
                   h2h_rank := rankLookup h m.entry } : ManualRow))
        (c.get ⟨i, hi⟩) := by
    simp [managerData, List.get_eq_getElem, List.getElem_map]
  rw [key]
  exact ⟨rfl, rfl⟩

/-- Primary list of the C4 witness — the scenario of the claim:
`[{id:1,rank:1,total:50},{id:2,rank:2,total:40}]`. -/
def pC4w : List LeagueEntry :=
  [⟨1, "p1", "t1", 1, 50, none⟩, ⟨2, "p2", "t2", 2, 40, none⟩]

/-- Secondary list of the C4 witness: `[{id:2,rank:1}]`. -/
def lC4w : List LeagueEntry := [⟨2, "p2", "t2", 1, 35, none⟩]

/-- Witness for the amended C4 at the claim's own scenario: manager 1 gets
a null secondary rank, manager 2 gets rank 1. -/
theorem c4_witness :
    ((managerData 7 pC4w lC4w []).get ⟨0, by decide⟩).lms_rank = none ∧
    ((managerData 7 pC4w lC4w []).get ⟨1, by decide⟩).lms_rank = some 1 := by
  have h0 := c4_amended_rank_join 7 pC4w lC4w [] 0 (by decide) (by decide)
  have h1 := c4_amended_rank_join 7 pC4w lC4w [] 1 (by decide) (by decide)
  exact ⟨h0.1.trans (by decide), h1.1.trans (by decide)⟩

/-- Request for the C5 counterexample: the legacy secret check passes. -/
def reqC5 : Req := ⟨none, some "Bearer s"⟩

/-- Configuration for the C5 counterexample. -/
def cfgC5 : EnvCfg := ⟨some "s", some "u", some "k"⟩

/-- Upstream for the C5 counterexample: everything is down, so pagination
yields zero managers. -/
def upC5 : FPLUpstream :=
  ⟨.error "down", fun _ => .error "down", fun _ => .error "down",
   fun _ => .error "down"⟩

/-- Detail fetches for the C5 environments (never reached). -/
def detailsC5 : Nat → Option MDetails := fun _ => none

/-- Picks fetches for the C5 environments (never reached). -/
def picksC5 : Nat → Nat → Option MPicks := fun _ _ => none

/-- Counterexample to C5 as stated: the legacy scheduled handler
(`api/cron/sync-fpl-data.js`, cited by the claim) responds HTTP 200 — not
500 — on an internal failure of the sync pipeline, and the failure body is
`{success:false, message}` rather than `{success:false, error}`. -/
theorem c5_counterexample :
    (legacyCronHandler reqC5 cfgC5 upC5 detailsC5 picksC5 3).status = 200 ∧
    (legacyCronHandler reqC5 cfgC5 upC5 detailsC5 picksC5 3).body =
      .failureMessage "No managers found" := by
  exact ⟨by decide, by decide⟩

/-- C5 as amended: the FIXED scheduled handler satisfies the claim — with a
valid secret, an internal failure (uninitialized store client or upsert
error) yields HTTP 500 with `{success:false, error}` and otherwise it
yields HTTP 200 with `{success:true, gw, managersProcessed, duration}` —
while the legacy scheduled handler always responds HTTP 200 once its
secret check passes, reporting failures only inside the body. -/
theorem c5_amended_status_bodies (req : Req) (up : FPLUpstream)
    (elapsedMs fuel : Nat)
    (details : Nat → Option MDetails) (picks : Nat → Nat → Option MPicks) :
    (∀ cfg : EnvCfg, extractCronSecret req = cfg.cronSecret →
       supabaseReady cfg = false → ∀ db : DB,
       fixedCronHandler req cfg up db elapsedMs fuel =
         { status := 500,
           body := .failure "Supabase client not initialized",
           upstreamCalls := 0, writes := [] }) ∧
    (∀ (cfg : EnvCfg) (db : DB) (msg : String),
       extractCronSecret req = cfg.cronSecret →
       supabaseReady cfg = true → db.upsertError = some msg →
       (fixedCronHandler req cfg up db elapsedMs fuel).status = 500 ∧
       (fixedCronHandler req cfg up db elapsedMs fuel).body =
         .failure ("Supabase insert failed: " ++ msg)) ∧
    (∀ (cfg : EnvCfg) (db : DB),
       extractCronSecret req = cfg.cronSecret →
       supabaseReady cfg = true → db.upsertError = none →
       (fixedCronHandler req cfg up db elapsedMs fuel).status = 200 ∧
       (fixedCronHandler req cfg up db elapsedMs fuel).body =
         .success (getCurrentGW up.bootstrap)
           (fetchAllManagersAux up.classic fuel 1 []).1.length elapsedMs) ∧
    (∀ cfg : EnvCfg,
       req.authorization = some ("Bearer " ++ cronSecretString cfg) →
       (legacyCronHandler req cfg up details picks fuel).status = 200) := by
  refine ⟨?_, ?_, ?_, ?_⟩
  · intro cfg hauth hsb db
    simp [fixedCronHandler, hauth, hsb]
  · intro cfg db msg hauth hsb hdb
    constructor <;> simp [fixedCronHandler, hauth, hsb, hdb]
  · intro cfg db hauth hsb hdb
    constructor <;>
      simp [fixedCronHandler, hauth, hsb, hdb, fixedManagerData]
  · intro cfg hauthL
    simp [legacyCronHandler, hauthL]

/-- Request for the C5 witness: both secret forms match. -/
def reqC5w : Req := ⟨none, some "Bearer tok"⟩

/-- Configuration for the C5 witness. -/
def cfgC5w : EnvCfg := ⟨some "tok", some "u", some "k"⟩

/-- Upstream for the C5 witness: gameweek 5 current, one classic manager. -/
def upC5w : FPLUpstream :=
  ⟨.ok ⟨[⟨5, true⟩]⟩,
   fun p => if p = 1 then .ok ⟨some ⟨some [⟨1, "a", "t", 1, 10, none⟩], false⟩⟩
     else .error "x",
   fun _ => .error "x", fun _ => .error "x"⟩

/-- Configuration for the C5 witness's uninitialized-store case: the
secret matches but `SUPABASE_URL` is unset. -/
def cfgC5n : EnvCfg := ⟨some "tok", none, some "k"⟩

/-- Witness for the amended C5 at a concrete environment, in the
uninitialized-store, the upsert-error and the success case. -/
theorem c5_witness :
    fixedCronHandler reqC5w cfgC5n upC5w ⟨none⟩ 4 3 =
      { status := 500, body := .failure "Supabase client not initialized",
        upstreamCalls := 0, writes := [] } ∧
    (fixedCronHandler reqC5w cfgC5w upC5w ⟨some "dup key"⟩ 4 3).status = 500 ∧
    (fixedCronHandler reqC5w cfgC5w upC5w ⟨some "dup key"⟩ 4 3).body =
      .failure "Supabase insert failed: dup key" ∧
    (fixedCronHandler reqC5w cfgC5w upC5w ⟨none⟩ 4 3).status = 200 ∧
    (fixedCronHandler reqC5w cfgC5w upC5w ⟨none⟩ 4 3).body =
      .success 5 1 4 ∧
    (legacyCronHandler reqC5w cfgC5w upC5w detailsC5 picksC5 3).status =
      200 := by
  have h := c5_amended_status_bodies reqC5w upC5w 4 3 detailsC5 picksC5
  obtain ⟨h0, ha, hb, hc⟩ := h
  exact ⟨h0 cfgC5n (by decide) (by decide) ⟨none⟩,
    (ha cfgC5w ⟨some "dup key"⟩ "dup key" (by decide) (by decide) rfl).1,
    ((ha cfgC5w ⟨some "dup key"⟩ "dup key" (by decide) (by decide)
      rfl).2).trans (by decide),
    (hb cfgC5w ⟨none⟩ (by decide) (by decide) rfl).1,
    ((hb cfgC5w ⟨none⟩ (by decide) (by decide) rfl).2).trans (by decide),
    hc cfgC5w (by decide)⟩

/-- Request for the C6 environment: the fixed secret check passes via the
dedicated header. -/
def reqC6 : Req := ⟨some "s6", none⟩

/-- Configuration for the C6 environment. -/
def cfgC6 : EnvCfg := ⟨some "s6", some "u", some "k"⟩

/-- Upstream for the C6 environment: one classic manager who also appears
in the LMS league with rank 7. -/
def upC6 : FPLUpstream :=
  ⟨.ok ⟨[⟨9, true⟩]⟩,
   fun p => if p = 1 then
       .ok ⟨some ⟨some [⟨1, "P", "T", 3, 100, some 5⟩], false⟩⟩
     else .error "x",
   fun p => if p = 1 then
       .ok ⟨some ⟨some [⟨1, "P", "T", 7, 90, none⟩], false⟩⟩
     else .error "x",
   fun _ => .error "x"⟩

/-- Data store for the C6 environment: the upsert succeeds. -/
def dbC6 : DB := ⟨none⟩

/-- Counterexample to C6 as stated: on the very same upstream input the two
triggers do NOT persist the same records — the scheduled (fixed) handler
writes classic-only columns while the manual handler writes a row carrying
`lms_rank: 7` under different column names; the literal column-key sets of
the two upserted objects differ. -/
theorem c6_counterexample :
    (fixedCronHandler reqC6 cfgC6 upC6 dbC6 4 3).writes =
      [.upsertManagerData [⟨1, "P", "T", 9, 5, 100, 3⟩]] ∧
    (manualSyncHandler cfgC6 upC6 dbC6 4 3).writes =
      [.upsertManagerData [⟨1, 9, "T", "P", 3, 100, 5, some 7, none⟩]] ∧
    fixedManagerDataKeys ≠ manualManagerDataKeys := by
  exact ⟨by decide, by decide, by decide⟩

/-- C6 as amended: with a valid secret the fixed scheduled handler and the
manual handler run the same pipeline and return identical status, body and
upstream-call count on every identical input — but they persist different
record shapes (see the C6 counterexample). -/
theorem c6_amended_same_pipeline (req : Req) (cfg : EnvCfg)
    (up : FPLUpstream) (db : DB) (elapsedMs fuel : Nat)
    (hauth : extractCronSecret req = cfg.cronSecret) :
    (fixedCronHandler req cfg up db elapsedMs fuel).status =
      (manualSyncHandler cfg up db elapsedMs fuel).status ∧
    (fixedCronHandler req cfg up db elapsedMs fuel).body =
      (manualSyncHandler cfg up db elapsedMs fuel).body ∧
    (fixedCronHandler req cfg up db elapsedMs fuel).upstreamCalls =
      (manualSyncHandler cfg up db elapsedMs fuel).upstreamCalls := by
  refine ⟨?_, ?_, ?_⟩ <;>
    cases hsb : supabaseReady cfg <;>
    cases hdb : db.upsertError <;>
    simp [fixedCronHandler, manualSyncHandler, hauth, hsb, hdb,
      fixedManagerData, managerData]

/-- Witness for the amended C6 at the concrete C6 environment. -/
theorem c6_witness :
    (fixedCronHandler reqC6 cfgC6 upC6 dbC6 4 3).status =
      (manualSyncHandler cfgC6 upC6 dbC6 4 3).status ∧
    (fixedCronHandler reqC6 cfgC6 upC6 dbC6 4 3).body =
      (manualSyncHandler cfgC6 upC6 dbC6 4 3).body ∧
    (fixedCronHandler reqC6 cfgC6 upC6 dbC6 4 3).upstreamCalls =
      (manualSyncHandler cfgC6 upC6 dbC6 4 3).upstreamCalls :=
  c6_amended_same_pipeline reqC6 cfgC6 upC6 dbC6 4 3 (by decide)

/-- Counterexample to C7 as stated: the descriptor flagged as current has
identifier 0, so the claim requires the resolver to return 0; the `|| 11`
coercion makes the code return the fallback 11 instead. -/
theorem c7_counterexample :
    getCurrentGW (.ok ⟨[⟨0, true⟩]⟩) = 11 ∧
    (Bootstrap.mk [⟨0, true⟩]).events.find? (fun e => e.is_current) =
      some ⟨0, true⟩ := by
  exact ⟨rfl, rfl⟩

/-- C7 as amended: the Period Resolver returns the identifier of the first
descriptor flagged current when that identifier is nonzero; on a fetch
failure, an empty descriptor list, no current descriptor, or a current
descriptor with identifier 0 it returns the fallback constant 11.  It is a
total function, so no failure escapes it. -/
theorem c7_amended_period_resolver (msg : String) :
    getCurrentGW (.error msg) = 11 ∧
    getCurrentGW (.ok ⟨[]⟩) = 11 ∧
    (∀ b : Bootstrap, b.events.find? (fun e => e.is_current) = none →
       getCurrentGW (.ok b) = 11) ∧
    (∀ (b : Bootstrap) (e : Event),
       b.events.find? (fun x => x.is_current) = some e →
       getCurrentGW (.ok b) = if e.id = 0 then 11 else e.id) := by
  refine ⟨rfl, rfl, ?_, ?_⟩
  · intro b hb
    simp [getCurrentGW, hb]
  · intro b e hb
    simp [getCurrentGW, hb]

/-- Witness for the amended C7: a failing fetch, a list with no current
descriptor, and the claim's own example list (which resolves to 11). -/
theorem c7_witness :
    getCurrentGW (.error "bootstrap-static returned 500") = 11 ∧
    getCurrentGW (.ok ⟨[⟨10, false⟩]⟩) = 11 ∧
    getCurrentGW (.ok ⟨[⟨10, false⟩, ⟨11, true⟩]⟩) = 11 := by
  have h := c7_amended_period_resolver "bootstrap-static returned 500"
  exact ⟨h.1, h.2.2.1 ⟨[⟨10, false⟩]⟩ (by decide),
    (h.2.2.2 ⟨[⟨10, false⟩, ⟨11, true⟩]⟩ ⟨11, true⟩ (by decide)).trans
      (by decide)⟩

/-- C8: a protected trigger (fixed or legacy scheduled handler) invoked
with a secret that does not match the configured value responds HTTP 401
with `{error: "Unauthorized"}`, performs zero upstream calls and attempts
zero data-store writes. -/
theorem c8_bad_secret_no_effects (req : Req) (cfg : EnvCfg)
    (up : FPLUpstream) (db : DB) (elapsedMs fuel : Nat)
    (details : Nat → Option MDetails) (picks : Nat → Nat → Option MPicks)
    (hfx : extractCronSecret req ≠ cfg.cronSecret)
    (hlg : req.authorization ≠ some ("Bearer " ++ cronSecretString cfg)) :
    fixedCronHandler req cfg up db elapsedMs fuel =
      { status := 401, body := .authError "Unauthorized",
        upstreamCalls := 0, writes := [] } ∧
    legacyCronHandler req cfg up details picks fuel =
      { status := 401, body := .authError "Unauthorized",
        upstreamCalls := 0, writes := [] } := by
  constructor
  · simp [fixedCronHandler, hfx]
  · simp [legacyCronHandler, hlg]

/-- Request for the C8 witness: a wrong bearer secret. -/
def reqC8 : Req := ⟨none, some "Bearer wrong"⟩

/-- Configuration for the C8 witness. -/
def cfgC8 : EnvCfg := ⟨some "right", some "u", some "k"⟩

/-- Upstream for the C8 witness (never reached). -/
def upC8 : FPLUpstream :=
  ⟨.error "never", fun _ => .error "never", fun _ => .error "never",
   fun _ => .error "never"⟩

/-- Witness for C8 at a concrete mismatched secret. -/
theorem c8_witness :
    fixedCronHandler reqC8 cfgC8 upC8 ⟨none⟩ 0 3 =
      { status := 401, body := .authError "Unauthorized",
        upstreamCalls := 0, writes := [] } ∧
    legacyCronHandler reqC8 cfgC8 upC8 (fun _ => none) (fun _ _ => none) 3 =
      { status := 401, body := .authError "Unauthorized",
        upstreamCalls := 0, writes := [] } :=
  c8_bad_secret_no_effects reqC8 cfgC8 upC8 ⟨none⟩ 0 3 (fun _ => none)
    (fun _ _ => none) (by decide) (by decide)

/-- Request for the C9 environments (fixed secret check passes via the
dedicated header). -/
def reqC9 : Req := ⟨some "s9", none⟩

/-- Request for the C9 counterexample: the legacy bearer secret matches. -/
def reqC9x : Req := ⟨none, some "Bearer s9"⟩

/-- Configuration for the C9 environments: `SUPABASE_URL` is unset. -/
def cfgC9 : EnvCfg := ⟨some "s9", none, some "k"⟩

/-- Upstream for the C9 environments: every fetch fails. -/
def upC9 : FPLUpstream :=
  ⟨.error "never", fun _ => .error "never", fun _ => .error "never",
   fun _ => .error "never"⟩

/-- Detail fetches for the C9 environments. -/
def detailsC9 : Nat → Option MDetails := fun _ => none

/-- Picks fetches for the C9 environments. -/
def picksC9 : Nat → Nat → Option MPicks := fun _ _ => none

/-- Counterexample to C9 as stated: the claim also covers the legacy
scheduled trigger, whose module-level `createClient` is unguarded (cited
lines 5-8 of `sync-fpl-data.js`).  That file contains no
`res.status(500)` at all: once its secret check passes the handler always
responds HTTP 200.  Here, with `SUPABASE_URL` unset and a valid secret,
the invocation yields HTTP 200 (body `{success:false, message:"No
managers found"}`, since the upstream is down) — not the claimed
structured HTTP 500 initialization failure.  (In a real deployment the
unguarded `createClient(undefined, undefined)` would instead throw at
module load — an uncaught crash, equally contradicting the claim.) -/
theorem c9_counterexample :
    cfgC9.supabaseUrl = none ∧
    (legacyCronHandler reqC9x cfgC9 upC9 detailsC9 picksC9 3).status = 200 ∧
    (legacyCronHandler reqC9x cfgC9 upC9 detailsC9 picksC9 3).body =
      .failureMessage "No managers found" := by
  exact ⟨rfl, by decide, by decide⟩

/-- C9 as amended: when the store connection URL or the store access key
is missing from the environment, the GUARDED handlers (fixed scheduled and
manual) respond with a structured HTTP 500 `{success:false,
error:"Supabase client not initialized"}` — no upstream call, no write, no
crash (the function is total and the undefined client handle is never
dereferenced).  The legacy scheduled trigger has no such guard and never
produces a 500: its handler responds 401 or 200 only. -/
theorem c9_missing_credentials (req : Req) (cfg : EnvCfg) (up : FPLUpstream)
    (db : DB) (elapsedMs fuel : Nat) (details : Nat → Option MDetails)
    (picks : Nat → Nat → Option MPicks)
    (hmiss : cfg.supabaseUrl = none ∨ cfg.supabaseKey = none)
    (hauth : extractCronSecret req = cfg.cronSecret) :
    fixedCronHandler req cfg up db elapsedMs fuel =
      { status := 500, body := .failure "Supabase client not initialized",
        upstreamCalls := 0, writes := [] } ∧
    manualSyncHandler cfg up db elapsedMs fuel =
      { status := 500, body := .failure "Supabase client not initialized",
        upstreamCalls := 0, writes := [] } ∧
    ((legacyCronHandler req cfg up details picks fuel).status = 401 ∨
     (legacyCronHandler req cfg up details picks fuel).status = 200) := by
  have hsb : supabaseReady cfg = false := by
    unfold supabaseReady
    rcases hmiss with h | h
    · rw [h]
    · cases hu : cfg.supabaseUrl
      · rfl
      · rw [h]
  refine ⟨?_, ?_, ?_⟩
  · simp [fixedCronHandler, hauth, hsb]
  · simp [manualSyncHandler, hsb]
  · by_cases hx :
      req.authorization ≠ some ("Bearer " ++ cronSecretString cfg)
    · exact Or.inl (by simp [legacyCronHandler, hx])
    · exact Or.inr (by simp [legacyCronHandler, hx])

/-- Witness for the amended C9 with the store URL missing. -/
theorem c9_witness :
    fixedCronHandler reqC9 cfgC9 upC9 ⟨none⟩ 0 3 =
      { status := 500, body := .failure "Supabase client not initialized",
        upstreamCalls := 0, writes := [] } ∧
    manualSyncHandler cfgC9 upC9 ⟨none⟩ 0 3 =
      { status := 500, body := .failure "Supabase client not initialized",
        upstreamCalls := 0, writes := [] } ∧
    ((legacyCronHandler reqC9 cfgC9 upC9 detailsC9 picksC9 3).status = 401 ∨
     (legacyCronHandler reqC9 cfgC9 upC9 detailsC9 picksC9 3).status =
       200) :=
  c9_missing_credentials reqC9 cfgC9 upC9 ⟨none⟩ 0 3 detailsC9 picksC9
    (Or.inl rfl) (by decide)

/-- C10: in the legacy per-manager loop, a failed details fetch skips that
manager (no row) and processing continues with the remaining managers; a
successful details fetch always yields exactly one row even when the picks
fetch failed, in which case the row's captain id is null; and every
produced row comes from a manager of the list whose details fetch
succeeded. -/
theorem c10_per_manager_tolerance (details : Nat → Option MDetails)
    (picks : Nat → Nat → Option MPicks) (gw : Nat) :
    (∀ m rest, details m.entry = none →
       syncManagerRows details picks gw (m :: rest) =
         syncManagerRows details picks gw rest) ∧
    (∀ m rest d, details m.entry = some d →
       syncManagerRows details picks gw (m :: rest) =
         legacyRow m d (picks m.entry gw) ::
           syncManagerRows details picks gw rest) ∧
    (∀ m d, details m.entry = some d → picks m.entry gw = none →
       (legacyRow m d (picks m.entry gw)).captain_id = none) ∧
    (∀ ms r, r ∈ syncManagerRows details picks gw ms →
       ∃ m, m ∈ ms ∧ ∃ d, details m.entry = some d ∧
         r = legacyRow m d (picks m.entry gw)) := by
  refine ⟨?_, ?_, ?_, ?_⟩
  · intro m rest h
    simp [syncManagerRows, List.filterMap_cons, h]
  · intro m rest d h
    simp [syncManagerRows, List.filterMap_cons, h]
  · intro m d h hp
    rw [hp]
    rfl
  · intro ms r hr
    simp only [syncManagerRows, List.mem_filterMap] at hr
    obtain ⟨m, hm, hmap⟩ := hr
    rw [Option.map_eq_some'] at hmap
    obtain ⟨d, hd, hrd⟩ := hmap
    exact ⟨m, hm, d, hd, hrd.symm⟩

/-- Detail fetches for the C10 witness: manager 1's fetch fails, all others
succeed. -/
def detailsC10 : Nat → Option MDetails := fun id =>
  if id = 1 then none else some ⟨some "Ln", some 1003, some 4, some 2⟩

/-- Picks fetches for the C10 witness: every picks fetch fails. -/
def picksC10 : Nat → Nat → Option MPicks := fun _ _ => none

/-- First classic manager of the C10 witness (details fetch fails). -/
def mC10a : LeagueEntry := ⟨1, "a", "ta", 1, 60, none⟩

/-- Second classic manager of the C10 witness (details fetch succeeds). -/
def mC10b : LeagueEntry := ⟨2, "b", "tb", 2, 50, some 7⟩

/-- Witness for C10: manager 1 is skipped, manager 2 is still written with
a null captain, and the produced row is accounted for. -/
theorem c10_witness :
    syncManagerRows detailsC10 picksC10 9 [mC10a, mC10b] =
      syncManagerRows detailsC10 picksC10 9 [mC10b] ∧
    syncManagerRows detailsC10 picksC10 9 [mC10b] =
      legacyRow mC10b ⟨some "Ln", some 1003, some 4, some 2⟩
        (picksC10 2 9) :: syncManagerRows detailsC10 picksC10 9 [] ∧
    (legacyRow mC10b ⟨some "Ln", some 1003, some 4, some 2⟩
      (picksC10 2 9)).captain_id = none ∧
    (∃ m, m ∈ [mC10b] ∧ ∃ d, detailsC10 m.entry = some d ∧
       legacyRow mC10b ⟨some "Ln", some 1003, some 4, some 2⟩
         (picksC10 2 9) = legacyRow m d (picksC10 m.entry 9)) := by
  have h := c10_per_manager_tolerance detailsC10 picksC10 9
  refine ⟨h.1 mC10a [mC10b] (by decide),
    h.2.1 mC10b [] ⟨some "Ln", some 1003, some 4, some 2⟩ (by decide),
    h.2.2.1 mC10b ⟨some "Ln", some 1003, some 4, some 2⟩ (by decide) rfl,
    h.2.2.2 [mC10b]
      (legacyRow mC10b ⟨some "Ln", some 1003, some 4, some 2⟩
        (picksC10 2 9)) (by decide)⟩

end BPL
